import Mathlib

/-
Shallow embedding of the stem-stamp sound classification pipeline over exact
rational arithmetic.  The embedded code is the classification core of the
repository: the heuristic rule engine, the merge of the external model scores
into the confidence map, the generic-category suppression
(src/models/sound_classifier.py, SoundClassifier.classify), the class-name
loading fallback (_load_class_map), and the selection policy with the color
lookup (src/core/sound_processor.py, GeneralSoundProcessor.process_file).
Audio feature extraction (librosa) and the external model are collaborators:
classification is embedded as a function of the extracted scalar features and
of the per-class mean scores of the external model.
-/

set_option maxHeartbeats 1000000

/-- The 24 keys of the confidence dictionary built by
SoundClassifier, in its fixed insertion order
(sound_classifier.py, lines 35-53). -/
inductive Category where
  | Drums
  | SnareDrum
  | BassDrum
  | Cymbal
  | HiHat
  | Percussion
  | Guitar
  | ElectricGuitar
  | BassGuitar
  | AcousticGuitar
  | Piano
  | Saxophone
  | Trumpet
  | Flute
  | Clarinet
  | Synthesizer
  | Electronic
  | Sample
  | Speech
  | MaleSpeech
  | FemaleSpeech
  | Singing
  | Vocals
  | Music
deriving DecidableEq, Fintype

/-- The dictionary key string of each category, exactly as written in
sound_classifier.py. -/
def catName : Category → String
  | Category.Drums => ("Drums")
  | Category.SnareDrum => ("Snare drum")
  | Category.BassDrum => ("Bass drum")
  | Category.Cymbal => ("Cymbal")
  | Category.HiHat => ("Hi-hat")
  | Category.Percussion => ("Percussion")
  | Category.Guitar => ("Guitar")
  | Category.ElectricGuitar => ("Electric guitar")
  | Category.BassGuitar => ("Bass guitar")
  | Category.AcousticGuitar => ("Acoustic guitar")
  | Category.Piano => ("Piano")
  | Category.Saxophone => ("Saxophone")
  | Category.Trumpet => ("Trumpet")
  | Category.Flute => ("Flute")
  | Category.Clarinet => ("Clarinet")
  | Category.Synthesizer => ("Synthesizer")
  | Category.Electronic => ("Electronic")
  | Category.Sample => ("Sample")
  | Category.Speech => ("Speech")
  | Category.MaleSpeech => ("Male speech")
  | Category.FemaleSpeech => ("Female speech")
  | Category.Singing => ("Singing")
  | Category.Vocals => ("Vocals")
  | Category.Music => ("Music")

/-- The categories in dictionary insertion order, which is the order in which
python iterates the items of the confidence dictionary. -/
def vocab : List Category :=
  [Category.Drums, Category.SnareDrum, Category.BassDrum, Category.Cymbal,
   Category.HiHat, Category.Percussion, Category.Guitar, Category.ElectricGuitar,
   Category.BassGuitar, Category.AcousticGuitar, Category.Piano,
   Category.Saxophone, Category.Trumpet, Category.Flute, Category.Clarinet,
   Category.Synthesizer, Category.Electronic, Category.Sample, Category.Speech,
   Category.MaleSpeech, Category.FemaleSpeech, Category.Singing, Category.Vocals,
   Category.Music]

/-- A confidence map: one rational confidence per vocabulary key. -/
def ConfidenceMap : Type := Category → ℚ

/-- The zero-initialized confidence dictionary
(sound_classifier.py, lines 35-53). -/
def initMap : ConfidenceMap := fun _ => 0

/-- Dictionary assignment on an existing key. -/
def upd (m : ConfidenceMap) (c : Category) (v : ℚ) : ConfidenceMap :=
  fun d => if d = c then v else m d

/-- The scalar features extracted from the waveform in classify
(sound_classifier.py, lines 77-86 and 108): mean and standard deviation of the
spectral centroid, mean spectral bandwidth, mean zero crossing rate, and the
mean over coefficients 2-5 of the per-coefficient mfcc standard deviation. -/
structure FeatureSet where
  spec_mean : ℚ
  spec_std : ℚ
  bandwidth_mean : ℚ
  zcr_mean : ℚ
  mfcc_std_mean : ℚ

/-- Percussion detection rule (sound_classifier.py, lines 88-97). -/
def percussionRule (f : FeatureSet) (m : ConfidenceMap) : ConfidenceMap :=
  if f.zcr_mean > 0.1 ∧ f.spec_mean > 2000 then
    upd
      (if f.spec_mean > 5000 then
        upd (upd m Category.Cymbal 0.9) Category.HiHat 0.8
      else if f.spec_mean < 1000 then
        upd m Category.BassDrum 0.9
      else
        upd m Category.SnareDrum 0.85)
      Category.Drums 0.9
  else m

/-- Guitar detection rule (sound_classifier.py, lines 99-105). -/
def guitarRule (f : FeatureSet) (m : ConfidenceMap) : ConfidenceMap :=
  if 500 < f.spec_mean ∧ f.spec_mean < 3000 ∧ f.spec_std > 500 then
    upd
      (if f.bandwidth_mean > 2000 then
        upd m Category.ElectricGuitar 0.9
      else
        upd m Category.AcousticGuitar 0.9)
      Category.Guitar 0.85
  else m

/-- Vocal detection rule (sound_classifier.py, lines 107-114).  The source
assigns Vocals first and then one of the two speech keys. -/
def vocalRule (f : FeatureSet) (m : ConfidenceMap) : ConfidenceMap :=
  if f.mfcc_std_mean > 15 then
    (if f.spec_mean > 1800 then
      upd (upd m Category.Vocals 0.9) Category.FemaleSpeech 0.8
    else
      upd (upd m Category.Vocals 0.9) Category.MaleSpeech 0.8)
  else m

/-- Electronic detection rule (sound_classifier.py, lines 116-119). -/
def electronicRule (f : FeatureSet) (m : ConfidenceMap) : ConfidenceMap :=
  if f.zcr_mean > 0.2 ∧ f.spec_std < 500 then
    upd (upd m Category.Electronic 0.85) Category.Synthesizer 0.8
  else m

/-- The heuristic rule engine: the four independent threshold rules of
classify, in source order. -/
def heuristicStage (f : FeatureSet) (m : ConfidenceMap) : ConfidenceMap :=
  electronicRule f (vocalRule f (guitarRule f (percussionRule f m)))

/-- Python str.lower on ascii strings. -/
def strLower (s : String) : String := s.map Char.toLower

/-- Python substring containment (the in operator on strings), on char
lists: some drop of the haystack has the needle as a prefix. -/
def listContains (hay needle : List Char) : Bool :=
  (List.range (hay.length + 1)).any (fun i => needle.isPrefixOf (hay.drop i))

/-- needle occurs as a substring of hay. -/
def substrOf (needle hay : String) : Bool := listContains hay.data needle.data

/-- The built-in fallback class-name list that is actually in effect: the
second definition of _load_class_map in sound_classifier.py (lines 196-219)
shadows the first one, and its except branch returns this minimal list of
drum-related class names. -/
def fallbackClassMap : List String :=
  [("Drums"), ("Snare drum"), ("Bass drum"), ("Drum kit"),
   ("Tabla"), ("Cymbal"), ("Hi-hat"), ("Bass drum"), ("Percussion")]

/-- _load_class_map as a function of the outcome of the call-time download of
the class-name list: the downloaded names when the download succeeds, the
built-in fallback list when it fails. -/
def loadClassMap : Option (List String) → List String
  | some names => names
  | none => fallbackClassMap

/-- One iteration of the merge loop of classify (lines 123-129): for an
external class with its mean score, when the score exceeds 0.3, every
vocabulary key whose lower-cased name is a substring of the lower-cased class
name is raised to the max of its current value and the score. -/
def mergeEntry (p : String × ℚ) (m : ConfidenceMap) : ConfidenceMap :=
  if p.2 > 0.3 then
    fun c =>
      if substrOf (strLower (catName c)) (strLower p.1) then max (m c) p.2
      else m c
  else m

/-- The merge of the external model scores into the confidence map
(sound_classifier.py, lines 121-129), over the list of
(class name, mean score) pairs. -/
def mergeStage (ys : List (String × ℚ)) (m : ConfidenceMap) : ConfidenceMap :=
  ys.foldl (fun acc p => mergeEntry p acc) m

/-- The generic-category suppression that ends the reachable part of classify
(sound_classifier.py, lines 131-133): Music is zeroed when any other key
exceeds 0.3. -/
def musicZeroStage (m : ConfidenceMap) : ConfidenceMap :=
  if ∃ c ∈ vocab, c ≠ Category.Music ∧ m c > 0.3 then upd m Category.Music 0
  else m

/-- SoundClassifier.classify (lines 55-135), as a function of the extracted
features and of the zipped (class name, mean score) list of the external
model: heuristic rules, then the merge, then the Music suppression.  This is
everything the reachable code does to the confidence dictionary before
returning it. -/
def classify (f : FeatureSet) (ys : List (String × ℚ)) : ConfidenceMap :=
  musicZeroStage (mergeStage ys (heuristicStage f initMap))

/-- classify together with the call-time class-name loading of line 122,
parametrized by the download outcome; the scores list is paired positionally
with the loaded class names, as the enumerate loop of lines 123-124 does. -/
def classifyRun (fetched : Option (List String)) (f : FeatureSet)
    (scores : List ℚ) : ConfidenceMap :=
  classify f (List.zip (loadClassMap fetched) scores)

/-- The post-processing block of sound_classifier.py, lines 161-188: the
guitar, drums and singing boost rules and the 0.15-threshold generic
fallback.  This block is unreachable in the source: it stands after the
return statements of the first _load_class_map definition, and that whole
definition is in addition shadowed by the second one.  It is embedded here to
compare what it would compute with what the reachable code computes. -/
def deadPostProcessing (m : ConfidenceMap) : ConfidenceMap :=
  let m1 := if m Category.ElectricGuitar > 0.3 then
      upd m Category.Guitar
        (max (m Category.Guitar) (m Category.ElectricGuitar * 0.8))
    else m
  let p := max (m1 Category.SnareDrum) (max (m1 Category.BassDrum)
    (max (m1 Category.Cymbal) (max (m1 Category.HiHat) (m1 Category.Percussion))))
  let m2 := if p > 0.3 then
      upd m1 Category.Drums (max (m1 Category.Drums) (p * 0.8))
    else m1
  let m3 := if m2 Category.Singing > 0.3 then
      upd m2 Category.Vocals
        (max (m2 Category.Vocals) (m2 Category.Singing * 0.9))
    else m2
  if ∃ c ∈ vocab, c ≠ Category.Music ∧ m3 c > 0.15 then
    upd m3 Category.Music 0
  else upd m3 Category.Music 0.1

/-- The color table of GeneralSoundProcessor (sound_processor.py,
lines 17-55). -/
def color_map : List (String × String) :=
  [(("Drums"), ("#FFD700")), (("Snare drum"), ("#FFA500")),
   (("Bass drum"), ("#FF4500")), (("Cymbal"), ("#FFE4B5")),
   (("Hi-hat"), ("#FFDAB9")), (("Percussion"), ("#DEB887")),
   (("Guitar"), ("#98FB98")), (("Electric guitar"), ("#90EE90")),
   (("Bass guitar"), ("#32CD32")), (("Acoustic guitar"), ("#228B22")),
   (("Piano"), ("#00FF00")), (("Violin"), ("#7CFC00")),
   (("Saxophone"), ("#87CEEB")), (("Trumpet"), ("#00BFFF")),
   (("Flute"), ("#1E90FF")), (("Clarinet"), ("#4169E1")),
   (("Synthesizer"), ("#FF00FF")), (("Electronic"), ("#FF69B4")),
   (("Sample"), ("#DA70D6")), (("Speech"), ("#FF1493")),
   (("Male speech"), ("#DB7093")), (("Female speech"), ("#FFB6C1")),
   (("Singing"), ("#FF69B4")), (("Vocals"), ("#FFC0CB")),
   (("Music"), ("#FFFFFF")), (("Generic"), ("#CCCCCC"))]

/-- self.color_map.get(instrument_type, white) of sound_processor.py line 94. -/
def colorLookup (k : String) : String :=
  (color_map.lookup k).getD ("#FFFFFF")

/-- The minimum confidence threshold of the selection policy
(sound_processor.py, line 81). -/
def threshold : ℚ := 0.15

/-- The items of a confidence map, in dictionary order. -/
def items (m : ConfidenceMap) : List (String × ℚ) :=
  vocab.map (fun c => (catName c, m c))

/-- The filter condition of sound_processor.py line 84: keep a non-Music key
when its value exceeds the threshold, and keep the Music key when every other
value is at most the threshold. -/
def keep (m : ConfidenceMap) (kv : String × ℚ) : Bool :=
  (decide (kv.2 > threshold) && decide (kv.1 ≠ ("Music"))) ||
  (decide (kv.1 = ("Music")) &&
    decide (∀ kv2 ∈ items m, kv2.1 ≠ ("Music") → kv2.2 ≤ threshold))

/-- The filtered classification dictionary (sound_processor.py,
lines 82-85). -/
def filtered_classifications (m : ConfidenceMap) : List (String × ℚ) :=
  (items m).filter (keep m)

/-- The dictionary the max of line 91 runs over: the filtered one, or the
Music singleton substituted on line 88 when the filter kept nothing. -/
def effectiveList (m : ConfidenceMap) : List (String × ℚ) :=
  if (filtered_classifications m).isEmpty then [(("Music"), (0.1 : ℚ))]
  else filtered_classifications m

/-- Python max with a key function over a nonempty sequence: scan left to
right and replace the current best only on a strictly greater value, so the
earliest maximal element wins. -/
def maxByVal : (String × ℚ) → List (String × ℚ) → (String × ℚ)
  | best, [] => best
  | best, x :: xs => maxByVal (if best.2 < x.2 then x else best) xs

/-- The instrument selected on sound_processor.py line 91. -/
def selectInstrument (m : ConfidenceMap) : String :=
  match effectiveList m with
  | [] => ("Music")
  | x :: xs => (maxByVal x xs).1

/-- GeneralSoundProcessor.process_file (sound_processor.py, lines 57-99)
after audio decoding, as a function of the mono sample count, the sample
rate, the extracted features, the class-name download outcome and the
external mean scores.  int(sample_rate * 0.1) is sample_rate / 10 in exact
arithmetic. -/
def process_file (numSamples sampleRate : ℕ) (f : FeatureSet)
    (fetched : Option (List String)) (scores : List ℚ) :
    Except String (String × String) :=
  if numSamples < sampleRate / 10 then
    Except.error (("Audio file is too short. Needs at least ") ++
      toString (sampleRate / 10) ++ (" samples."))
  else
    let inst := selectInstrument (classifyRun fetched f scores)
    Except.ok (inst, colorLookup inst)

/-- Modelled from the spec: the category vocabulary of the data-model
section, which lists Violin among the string instruments; kept for
comparison with the vocabulary the source actually initializes. -/
def specVocabularyNames : List String :=
  [("Drums"), ("Snare drum"), ("Bass drum"), ("Cymbal"), ("Hi-hat"),
   ("Percussion"), ("Guitar"), ("Electric guitar"), ("Acoustic guitar"),
   ("Bass guitar"), ("Piano"), ("Violin"), ("Saxophone"), ("Trumpet"),
   ("Flute"), ("Clarinet"), ("Synthesizer"), ("Electronic"), ("Sample"),
   ("Speech"), ("Male speech"), ("Female speech"), ("Singing"), ("Vocals"),
   ("Music")]

/-- The percussion family of the vocabulary. -/
def percussionFamily : List Category :=
  [Category.Drums, Category.SnareDrum, Category.BassDrum, Category.Cymbal,
   Category.HiHat, Category.Percussion]

/-- A feature record on which no heuristic rule fires. -/
def fZero : FeatureSet :=
  { spec_mean := 0, spec_std := 0, bandwidth_mean := 0, zcr_mean := 0,
    mfcc_std_mean := 0 }

/-- Features of the percussion test clip: zero crossing rate mean 0.15 and
spectral centroid mean 6000. -/
def fPerc : FeatureSet :=
  { spec_mean := 6000, spec_std := 0, bandwidth_mean := 0, zcr_mean := 0.15,
    mfcc_std_mean := 0 }

/-- Features firing the electric-guitar heuristic branch. -/
def fEGtr : FeatureSet :=
  { spec_mean := 1000, spec_std := 600, bandwidth_mean := 2500,
    zcr_mean := 0, mfcc_std_mean := 0 }

theorem upd_same (m : ConfidenceMap) (c : Category) (v : ℚ) : upd m c v c = v := by
  unfold upd
  rw [ if_pos rfl]

theorem upd_ne (m : ConfidenceMap) (c : Category) (v : ℚ) (d : Category) (h : d ≠ c) :
    upd m c v d = m d := by
  unfold upd
  rw [ if_neg h]

/-- All confidences lie in the unit interval. -/
def Bounded (m : ConfidenceMap) : Prop := ∀ c, 0 ≤ m c ∧ m c ≤ 1

theorem initMap_bounded : Bounded initMap := fun _ => ⟨le_refl 0, zero_le_one⟩

theorem upd_bounded {m : ConfidenceMap} {c : Category} {v : ℚ} (hm : Bounded m)
    (h0 : 0 ≤ v) (h1 : v ≤ 1) : Bounded (upd m c v) := by
  intro d
  unfold upd
  split
  · exact ⟨h0, h1⟩
  · exact hm d

theorem percussionRule_other (f : FeatureSet) (m : ConfidenceMap) (c : Category)
    (h1 : c ≠ Category.Cymbal) (h2 : c ≠ Category.HiHat) (h3 : c ≠ Category.BassDrum)
    (h4 : c ≠ Category.SnareDrum) (h5 : c ≠ Category.Drums) :
    percussionRule f m c = m c := by
  unfold percussionRule
  split
  · split
    · simp [upd, h1, h2, h5]
    · split
      · simp [upd, h3, h5]
      · simp [upd, h4, h5]
  · rfl

theorem guitarRule_other (f : FeatureSet) (m : ConfidenceMap) (c : Category)
    (h1 : c ≠ Category.ElectricGuitar) (h2 : c ≠ Category.AcousticGuitar)
    (h3 : c ≠ Category.Guitar) :
    guitarRule f m c = m c := by
  unfold guitarRule
  split
  · split
    · simp [upd, h1, h3]
    · simp [upd, h2, h3]
  · rfl

theorem vocalRule_other (f : FeatureSet) (m : ConfidenceMap) (c : Category)
    (h1 : c ≠ Category.Vocals) (h2 : c ≠ Category.FemaleSpeech)
    (h3 : c ≠ Category.MaleSpeech) :
    vocalRule f m c = m c := by
  unfold vocalRule
  split
  · split
    · simp [upd, h1, h2]
    · simp [upd, h1, h3]
  · rfl

theorem electronicRule_other (f : FeatureSet) (m : ConfidenceMap) (c : Category)
    (h1 : c ≠ Category.Electronic) (h2 : c ≠ Category.Synthesizer) :
    electronicRule f m c = m c := by
  unfold electronicRule
  split
  · simp [upd, h1, h2]
  · rfl

theorem percussionRule_bounded (f : FeatureSet) {m : ConfidenceMap} (hm : Bounded m) :
    Bounded (percussionRule f m) := by
  unfold percussionRule
  split
  · refine upd_bounded ?_ (by norm_num) (by norm_num)
    split
    · exact upd_bounded (upd_bounded hm (by norm_num) (by norm_num)) (by norm_num) (by norm_num)
    · split
      · exact upd_bounded hm (by norm_num) (by norm_num)
      · exact upd_bounded hm (by norm_num) (by norm_num)
  · exact hm

theorem guitarRule_bounded (f : FeatureSet) {m : ConfidenceMap} (hm : Bounded m) :
    Bounded (guitarRule f m) := by
  unfold guitarRule
  split
  · refine upd_bounded ?_ (by norm_num) (by norm_num)
    split
    · exact upd_bounded hm (by norm_num) (by norm_num)
    · exact upd_bounded hm (by norm_num) (by norm_num)
  · exact hm

theorem vocalRule_bounded (f : FeatureSet) {m : ConfidenceMap} (hm : Bounded m) :
    Bounded (vocalRule f m) := by
  unfold vocalRule
  split
  · split
    · exact upd_bounded (upd_bounded hm (by norm_num) (by norm_num)) (by norm_num) (by norm_num)
    · exact upd_bounded (upd_bounded hm (by norm_num) (by norm_num)) (by norm_num) (by norm_num)
  · exact hm

theorem electronicRule_bounded (f : FeatureSet) {m : ConfidenceMap} (hm : Bounded m) :
    Bounded (electronicRule f m) := by
  unfold electronicRule
  split
  · exact upd_bounded (upd_bounded hm (by norm_num) (by norm_num)) (by norm_num) (by norm_num)
  · exact hm

theorem heuristicStage_bounded (f : FeatureSet) {m : ConfidenceMap} (hm : Bounded m) :
    Bounded (heuristicStage f m) :=
  electronicRule_bounded f (vocalRule_bounded f (guitarRule_bounded f (percussionRule_bounded f hm)))

theorem mergeEntry_apply (p : String × ℚ) (m : ConfidenceMap) (c : Category) :
    mergeEntry p m c =
      if p.2 > 0.3 ∧ substrOf (strLower (catName c)) (strLower p.1) = true then
        max (m c) p.2
      else m c := by
  unfold mergeEntry
  by_cases h1 : p.2 > 0.3
  · by_cases h2 : substrOf (strLower (catName c)) (strLower p.1) = true
    · rw [ if_pos h1]
      show (if substrOf (strLower (catName c)) (strLower p.1) = true then max (m c) p.2
        else m c) = _
      rw [ if_pos h2, if_pos ⟨h1, h2⟩]
    · rw [ if_pos h1]
      show (if substrOf (strLower (catName c)) (strLower p.1) = true then max (m c) p.2
        else m c) = _
      rw [ if_neg h2, if_neg (fun hand => h2 hand.2)]
  · rw [ if_neg h1, if_neg (fun hand => h1 hand.1)]

theorem mergeEntry_le (p : String × ℚ) (m : ConfidenceMap) (c : Category) :
    m c ≤ mergeEntry p m c := by
  rw [ mergeEntry_apply]
  split
  · exact le_max_left _ _
  · exact le_refl _

theorem mergeStage_cons (q : String × ℚ) (t : List (String × ℚ)) (m : ConfidenceMap) :
    mergeStage (q :: t) m = mergeStage t (mergeEntry q m) := rfl

theorem mergeStage_le (ys : List (String × ℚ)) (m : ConfidenceMap) (c : Category) :
    m c ≤ mergeStage ys m c := by
  induction ys generalizing m with
  | nil => exact le_refl _
  | cons q t ih => exact le_trans (mergeEntry_le q m c) (ih (mergeEntry q m))

theorem mergeStage_untouched (ys : List (String × ℚ)) (m : ConfidenceMap) (c : Category)
    (h : ∀ p ∈ ys, ¬(p.2 > 0.3 ∧ substrOf (strLower (catName c)) (strLower p.1) = true)) :
    mergeStage ys m c = m c := by
  induction ys generalizing m with
  | nil => rfl
  | cons q t ih =>
    rw [ mergeStage_cons, ih (mergeEntry q m) (fun p hp => h p (List.mem_cons_of_mem q hp)),
      mergeEntry_apply, if_neg (h q (List.mem_cons_self q t))]

theorem mergeStage_lower (ys : List (String × ℚ)) (m : ConfidenceMap) (c : Category)
    (p : String × ℚ) (hp : p ∈ ys) (h1 : p.2 > 0.3)
    (h2 : substrOf (strLower (catName c)) (strLower p.1) = true) :
    p.2 ≤ mergeStage ys m c := by
  revert hp
  induction ys generalizing m with
  | nil => intro hp; cases hp
  | cons q t ih =>
    intro hp
    rw [ mergeStage_cons]
    rcases List.mem_cons.mp hp with heq | hmem
    · refine le_trans ?_ (mergeStage_le t (mergeEntry q m) c)
      rw [ heq, mergeEntry_apply, if_pos ⟨heq ▸ h1, heq ▸ h2⟩]
      exact le_max_right _ _
    · exact ih (mergeEntry q m) hmem

theorem mergeStage_attained (ys : List (String × ℚ)) (m : ConfidenceMap) (c : Category) :
    mergeStage ys m c = m c ∨
      ∃ p ∈ ys, (p.2 > 0.3 ∧ substrOf (strLower (catName c)) (strLower p.1) = true) ∧
        mergeStage ys m c = p.2 := by
  induction ys generalizing m with
  | nil => exact Or.inl rfl
  | cons q t ih =>
    rw [ mergeStage_cons]
    rcases ih (mergeEntry q m) with h | ⟨p, hp, hq, he⟩
    · rw [ h, mergeEntry_apply]
      by_cases hcond : q.2 > 0.3 ∧ substrOf (strLower (catName c)) (strLower q.1) = true
      · rw [ if_pos hcond]
        rcases le_or_lt q.2 (m c) with hle | hlt
        · exact Or.inl (max_eq_left hle)
        · exact Or.inr ⟨q, List.mem_cons_self q t, hcond, max_eq_right hlt.le⟩
      · exact Or.inl (if_neg hcond)
    · exact Or.inr ⟨p, List.mem_cons_of_mem q hp, hq, he⟩

theorem mergeEntry_bounded {p : String × ℚ} {m : ConfidenceMap}
    (hp : 0 ≤ p.2 ∧ p.2 ≤ 1) (hm : Bounded m) : Bounded (mergeEntry p m) := by
  intro c
  rw [ mergeEntry_apply]
  split
  · exact ⟨le_trans (hm c).1 (le_max_left _ _), max_le (hm c).2 hp.2⟩
  · exact hm c

theorem mergeStage_bounded {ys : List (String × ℚ)} {m : ConfidenceMap}
    (hys : ∀ p ∈ ys, 0 ≤ p.2 ∧ p.2 ≤ 1) (hm : Bounded m) : Bounded (mergeStage ys m) := by
  induction ys generalizing m with
  | nil => exact hm
  | cons q t ih =>
    exact ih (fun p hp => hys p (List.mem_cons_of_mem q hp))
      (mergeEntry_bounded (hys q (List.mem_cons_self q t)) hm)

theorem musicZeroStage_ne (m : ConfidenceMap) (c : Category) (h : c ≠ Category.Music) :
    musicZeroStage m c = m c := by
  unfold musicZeroStage
  split
  · exact upd_ne _ _ _ _ h
  · rfl

theorem musicZeroStage_bounded {m : ConfidenceMap} (hm : Bounded m) :
    Bounded (musicZeroStage m) := by
  unfold musicZeroStage
  split
  · exact upd_bounded hm (le_refl 0) zero_le_one
  · exact hm

theorem classify_bounded (f : FeatureSet) (ys : List (String × ℚ))
    (hys : ∀ p ∈ ys, 0 ≤ p.2 ∧ p.2 ≤ 1) : Bounded (classify f ys) :=
  musicZeroStage_bounded (mergeStage_bounded hys (heuristicStage_bounded f initMap_bounded))

theorem listContains_iff (hay needle : List Char) :
    listContains hay needle = true ↔ needle <:+: hay := by
  unfold listContains
  simp only [List.any_eq_true, List.mem_range]
  constructor
  · rintro ⟨i, _, hpre⟩
    rw [ List.isPrefixOf_iff_prefix] at hpre
    exact List.IsInfix.trans ( List.IsPrefix.isInfix hpre)
      ( List.IsSuffix.isInfix (List.drop_suffix i hay))
  · rintro ⟨s, t, hst⟩
    have hlen : s.length + (needle.length + t.length) = hay.length := by
      have := congrArg List.length hst
      simpa [List.length_append] using this
    refine ⟨s.length, by omega, ?_⟩
    rw [ List.isPrefixOf_iff_prefix, ← hst, List.append_assoc, List.drop_left]
    exact ⟨t, rfl⟩

theorem substrOf_trans {a b c : String} (h1 : substrOf a b = true)
    (h2 : substrOf b c = true) : substrOf a c = true := by
  unfold substrOf at h1 h2 ⊢
  rw [ listContains_iff] at h1 h2 ⊢
  exact List.IsInfix.trans h1 h2

theorem heuristicStage_eg (f : FeatureSet) :
    heuristicStage f initMap Category.ElectricGuitar =
      guitarRule f (percussionRule f initMap) Category.ElectricGuitar := by
  unfold heuristicStage
  rw [ electronicRule_other f _ _ (by decide) (by decide),
    vocalRule_other f _ _ (by decide) (by decide) (by decide)]

theorem heuristicStage_g (f : FeatureSet) :
    heuristicStage f initMap Category.Guitar =
      guitarRule f (percussionRule f initMap) Category.Guitar := by
  unfold heuristicStage
  rw [ electronicRule_other f _ _ (by decide) (by decide),
    vocalRule_other f _ _ (by decide) (by decide) (by decide)]

theorem heuristic_eg_cases (f : FeatureSet) :
    (heuristicStage f initMap Category.ElectricGuitar = 0.9 ∧
      heuristicStage f initMap Category.Guitar = 0.85) ∨
    heuristicStage f initMap Category.ElectricGuitar = 0 := by
  have hEG := heuristicStage_eg f
  have hG := heuristicStage_g f
  have hpEG : percussionRule f initMap Category.ElectricGuitar = 0 :=
    percussionRule_other f _ _ (by decide) (by decide) (by decide) (by decide) (by decide)
  unfold guitarRule at hEG hG
  by_cases hc : 500 < f.spec_mean ∧ f.spec_mean < 3000 ∧ f.spec_std > 500
  · rw [ if_pos hc] at hEG hG
    by_cases hb : f.bandwidth_mean > 2000
    · rw [ if_pos hb] at hEG hG
      left
      constructor
      · rw [ hEG]
        simp [upd]
      · rw [ hG]
        simp [upd]
    · rw [ if_neg hb] at hEG
      right
      rw [ hEG]
      simp [upd, hpEG]
  · rw [ if_neg hc] at hEG
    right
    rw [ hEG, hpEG]

theorem heuristicStage_perc_values (f : FeatureSet) (h1 : f.zcr_mean = 0.15)
    (h2 : f.spec_mean = 6000) :
    heuristicStage f initMap Category.Cymbal = 0.9 ∧
    heuristicStage f initMap Category.HiHat = 0.8 ∧
    heuristicStage f initMap Category.Drums = 0.9 := by
  have hp : percussionRule f initMap =
      upd (upd (upd initMap Category.Cymbal 0.9) Category.HiHat 0.8) Category.Drums 0.9 := by
    unfold percussionRule
    rw [ if_pos ⟨by rw [ h1]; norm_num, by rw [ h2]; norm_num⟩,
      if_pos (by rw [ h2]; norm_num)]
  refine ⟨?_, ?_, ?_⟩
  all_goals
    unfold heuristicStage
    rw [ electronicRule_other f _ _ (by decide) (by decide),
      vocalRule_other f _ _ (by decide) (by decide) (by decide),
      guitarRule_other f _ _ (by decide) (by decide) (by decide), hp]
  all_goals simp [upd]

theorem vocab_complete : ∀ c : Category, c ∈ vocab := by decide

theorem catName_eq_music_iff :
    ∀ c : Category, catName c = ("Music") ↔ c = Category.Music := by decide

theorem mem_items_of (m : ConfidenceMap) (c : Category) : (catName c, m c) ∈ items m :=
  List.mem_map_of_mem (fun c => (catName c, m c)) (vocab_complete c)

theorem items_mem_iff (m : ConfidenceMap) (kv : String × ℚ) :
    kv ∈ items m ↔ ∃ c : Category, kv = (catName c, m c) := by
  unfold items
  rw [ List.mem_map]
  constructor
  · rintro ⟨c, _, rfl⟩
    exact ⟨c, rfl⟩
  · rintro ⟨c, rfl⟩
    exact ⟨c, vocab_complete c, rfl⟩

theorem keep_iff (m : ConfidenceMap) (kv : String × ℚ) :
    keep m kv = true ↔
      ((kv.2 > threshold ∧ kv.1 ≠ ("Music")) ∨
        (kv.1 = ("Music") ∧ ∀ kv2 ∈ items m, kv2.1 ≠ ("Music") → kv2.2 ≤ threshold)) := by
  unfold keep
  simp only [Bool.or_eq_true, Bool.and_eq_true, decide_eq_true_eq]

theorem filtered_mem_iff_nonmusic (m : ConfidenceMap) (c : Category)
    (hc : c ≠ Category.Music) :
    ((catName c, m c) ∈ filtered_classifications m ↔ m c > threshold) := by
  unfold filtered_classifications
  rw [ List.mem_filter, keep_iff]
  constructor
  · rintro ⟨_, h | h⟩
    · exact h.1
    · exact absurd ((catName_eq_music_iff c).mp h.1) hc
  · intro h
    exact ⟨mem_items_of m c,
      Or.inl ⟨h, fun hn => hc ((catName_eq_music_iff c).mp hn)⟩⟩

theorem filtered_mem_music_iff (m : ConfidenceMap) :
    ((("Music"), m Category.Music) ∈ filtered_classifications m ↔
      ∀ c : Category, c ≠ Category.Music → m c ≤ threshold) := by
  unfold filtered_classifications
  rw [ List.mem_filter, keep_iff]
  constructor
  · rintro ⟨_, h | h⟩
    · exact absurd rfl h.2
    · intro c hc
      exact h.2 (catName c, m c) (mem_items_of m c)
        (fun hn => hc ((catName_eq_music_iff c).mp hn))
  · intro h
    refine ⟨mem_items_of m Category.Music, Or.inr ⟨rfl, ?_⟩⟩
    intro kv2 hkv2 hne
    rcases (items_mem_iff m kv2).mp hkv2 with ⟨c, rfl⟩
    have hc : c ≠ Category.Music := fun hcm => hne (by rw [ hcm]; rfl)
    exact h c hc

theorem maxByVal_first_max (x : String × ℚ) (xs : List (String × ℚ)) :
    ∃ l1 l2, x :: xs = l1 ++ maxByVal x xs :: l2 ∧
      (∀ p ∈ x :: xs, p.2 ≤ (maxByVal x xs).2) ∧
      (∀ p ∈ l1, p.2 < (maxByVal x xs).2) := by
  induction xs generalizing x with
  | nil =>
    refine ⟨[], [], rfl, ?_, ?_⟩
    · intro p hp
      rcases List.mem_singleton.mp hp with rfl
      exact le_refl _
    · intro p hp
      cases hp
  | cons y ys ih =>
    by_cases h : x.2 < y.2
    · obtain ⟨l1, l2, hdec, hmax, hfirst⟩ := ih y
      have hres : maxByVal x (y :: ys) = maxByVal y ys := by
        show maxByVal (if x.2 < y.2 then y else x) ys = maxByVal y ys
        rw [ if_pos h]
      rw [ hres]
      refine ⟨x :: l1, l2, ?_, ?_, ?_⟩
      · rw [ List.cons_append, ← hdec]
      · intro p hp
        rcases List.mem_cons.mp hp with rfl | hp2
        · exact le_trans (le_of_lt h) (hmax y (List.mem_cons_self y ys))
        · exact hmax p hp2
      · intro p hp
        rcases List.mem_cons.mp hp with rfl | hp2
        · exact lt_of_lt_of_le h (hmax y (List.mem_cons_self y ys))
        · exact hfirst p hp2
    · obtain ⟨l1, l2, hdec, hmax, hfirst⟩ := ih x
      have hres : maxByVal x (y :: ys) = maxByVal x ys := by
        show maxByVal (if x.2 < y.2 then y else x) ys = maxByVal x ys
        rw [ if_neg h]
      rw [ hres]
      cases l1 with
      | nil =>
        simp only [List.nil_append] at hdec
        injection hdec with hd1 hd2
        refine ⟨[], y :: l2, ?_, ?_, ?_⟩
        · rw [ List.nil_append, ← hd1, hd2]
        · intro p hp
          rcases List.mem_cons.mp hp with heq | hp2
          · rw [ heq]
            exact hmax x (List.mem_cons_self x ys)
          rcases List.mem_cons.mp hp2 with heq | hp3
          · rw [ heq]
            exact le_trans (le_of_not_lt h) (hmax x (List.mem_cons_self x ys))
          · exact hmax p (List.mem_cons_of_mem x hp3)
        · intro p hp
          cases hp
      | cons a l1t =>
        injection hdec with hd1 hd2
        rw [ List.append_eq] at hd2
        have hmem1 : x ∈ a :: l1t := by
          rw [ hd1]
          exact List.mem_cons_self a l1t
        refine ⟨x :: y :: l1t, l2, ?_, ?_, ?_⟩
        · simp only [List.cons_append]
          rw [ ← hd2]
        · intro p hp
          rcases List.mem_cons.mp hp with heq | hp2
          · rw [ heq]
            exact hmax x (List.mem_cons_self x ys)
          rcases List.mem_cons.mp hp2 with heq | hp3
          · rw [ heq]
            exact le_trans (le_of_not_lt h) (hmax x (List.mem_cons_self x ys))
          · exact hmax p (List.mem_cons_of_mem x hp3)
        · intro p hp
          rcases List.mem_cons.mp hp with heq | hp2
          · rw [ heq]
            exact hfirst x hmem1
          rcases List.mem_cons.mp hp2 with heq | hp3
          · rw [ heq]
            exact lt_of_le_of_lt (le_of_not_lt h) (hfirst x hmem1)
          · exact hfirst p (List.mem_cons_of_mem a hp3)

theorem effectiveList_ne_nil (m : ConfidenceMap) : effectiveList m ≠ [] := by
  unfold effectiveList
  by_cases hE : (filtered_classifications m).isEmpty
  · rw [ if_pos hE]
    exact List.cons_ne_nil _ _
  · rw [ if_neg hE]
    intro hnil
    exact hE (by rw [ hnil]; rfl)

theorem effectiveList_mem_names (m : ConfidenceMap) (p : String × ℚ)
    (hp : p ∈ effectiveList m) : p.1 ∈ vocab.map catName := by
  unfold effectiveList at hp
  by_cases hE : (filtered_classifications m).isEmpty
  · rw [ if_pos hE] at hp
    rcases List.mem_singleton.mp hp with rfl
    apply of_decide_eq_true
    with_unfolding_all rfl
  · rw [ if_neg hE] at hp
    unfold filtered_classifications at hp
    have hi := (List.mem_filter.mp hp).1
    rcases (items_mem_iff m p).mp hi with ⟨c, rfl⟩
    exact List.mem_map_of_mem catName (vocab_complete c)

theorem selectInstrument_mem (m : ConfidenceMap) :
    selectInstrument m ∈ vocab.map catName := by
  unfold selectInstrument
  rcases hE : effectiveList m with _ | ⟨x, xs⟩
  · exact absurd hE (effectiveList_ne_nil m)
  · obtain ⟨l1, l2, hdec, -, -⟩ := maxByVal_first_max x xs
    have hmem : maxByVal x xs ∈ x :: xs := by
      rw [ hdec]
      exact List.mem_append_right l1 (List.mem_cons_self _ _)
    exact effectiveList_mem_names m (maxByVal x xs) (by rw [ hE]; exact hmem)

theorem merged_guitar_dominates (f : FeatureSet) (ys : List (String × ℚ))
    (h : mergeStage ys (heuristicStage f initMap) Category.ElectricGuitar > 0.3) :
    mergeStage ys (heuristicStage f initMap) Category.ElectricGuitar * 0.8 ≤
      mergeStage ys (heuristicStage f initMap) Category.Guitar := by
  rcases mergeStage_attained ys (heuristicStage f initMap) Category.ElectricGuitar with
    heq | ⟨p, hp, ⟨hs, hsub⟩, heq⟩
  · rcases heuristic_eg_cases f with ⟨hEG, hG⟩ | hEG
    · have h1 : (0.85 : ℚ) ≤ mergeStage ys (heuristicStage f initMap) Category.Guitar := by
        rw [ ← hG]
        exact mergeStage_le ys _ Category.Guitar
      rw [ heq, hEG]
      linarith
    · rw [ heq, hEG] at h
      norm_num at h
  · have hsubG : substrOf (strLower (catName Category.Guitar)) (strLower p.1) = true :=
      substrOf_trans (by with_unfolding_all rfl) hsub
    have hlow := mergeStage_lower ys (heuristicStage f initMap) Category.Guitar p hp hs hsubG
    rw [ heq]
    rw [ heq] at h
    linarith

theorem fallback_scope_fact :
    ∀ c : Category, c ∈ percussionFamily ∨
      ∀ name ∈ fallbackClassMap, substrOf (strLower (catName c)) (strLower name) = false := by
  apply of_decide_eq_true
  with_unfolding_all rfl

/-- C1: for every confidence map reaching the post-merge stage of classify
with Electric guitar above 0.3, the value of Guitar returned by that stage
equals max(Guitar, Electric guitar times 0.8) - the boost is extensionally a
no-op there because any class name containing the electric guitar name also
contains the guitar name - and in particular whenever Electric guitar is
exactly 0.5 after the merge, classify returns Guitar at least 0.4. -/
theorem guitar_boost_semantics (f : FeatureSet) (ys : List (String × ℚ))
    (h : mergeStage ys (heuristicStage f initMap) Category.ElectricGuitar > 0.3) :
    musicZeroStage (mergeStage ys (heuristicStage f initMap)) Category.Guitar =
      max (mergeStage ys (heuristicStage f initMap) Category.Guitar)
        (mergeStage ys (heuristicStage f initMap) Category.ElectricGuitar * 0.8) ∧
    (mergeStage ys (heuristicStage f initMap) Category.ElectricGuitar = 0.5 →
      classify f ys Category.Guitar ≥ 0.4) := by
  have hdom := merged_guitar_dominates f ys h
  have hmz : musicZeroStage (mergeStage ys (heuristicStage f initMap)) Category.Guitar =
      mergeStage ys (heuristicStage f initMap) Category.Guitar :=
    musicZeroStage_ne _ Category.Guitar (by decide)
  constructor
  · rw [ hmz, max_eq_left hdom]
  · intro h5
    have hcl : classify f ys Category.Guitar =
        mergeStage ys (heuristicStage f initMap) Category.Guitar := hmz
    rw [ hcl]
    rw [ h5] at hdom
    linarith

/-- Witness for C1 at the electric-guitar heuristic features and an empty
score list. -/
theorem guitar_boost_semantics_witness :
    mergeStage [] (heuristicStage fEGtr initMap) Category.ElectricGuitar > 0.3 ∧
    (musicZeroStage (mergeStage [] (heuristicStage fEGtr initMap)) Category.Guitar =
      max (mergeStage [] (heuristicStage fEGtr initMap) Category.Guitar)
        (mergeStage [] (heuristicStage fEGtr initMap) Category.ElectricGuitar * 0.8) ∧
    (mergeStage [] (heuristicStage fEGtr initMap) Category.ElectricGuitar = 0.5 →
      classify fEGtr [] Category.Guitar ≥ 0.4)) :=
  ⟨by apply of_decide_eq_true; with_unfolding_all rfl,
    guitar_boost_semantics fEGtr [] (by apply of_decide_eq_true; with_unfolding_all rfl)⟩

/-- C2: on features firing no heuristic rule and an empty external score
list, every non-generic confidence is at most 0.15, yet classify returns
Music = 0, not the 0.1 the generic fallback demands; the unreachable
post-processing block would have returned 0.1. -/
theorem music_fallback_divergence :
    classify fZero [] Category.Music = 0 ∧
    (∀ c : Category, c ≠ Category.Music → classify fZero [] c ≤ 0.15) ∧
    deadPostProcessing (mergeStage [] (heuristicStage fZero initMap)) Category.Music = 0.1 := by
  refine ⟨by with_unfolding_all rfl, ?_, by with_unfolding_all rfl⟩
  apply of_decide_eq_true
  with_unfolding_all rfl

/-- C3 (amended): process_file fails exactly when the sample count is below
sample_rate / 10 (the truncation of sample_rate times 0.1); on failure the
result does not depend on the classifier inputs, and a count of at least
sample_rate times 0.1 always passes the check. -/
theorem process_file_length_gate (n r : ℕ) (f g : FeatureSet)
    (o1 o2 : Option (List String)) (s1 s2 : List ℚ) :
    ((∃ e, process_file n r f o1 s1 = Except.error e) ↔ n < r / 10) ∧
    (n < r / 10 → process_file n r f o1 s1 = process_file n r g o2 s2) ∧
    (((r : ℚ) * 0.1 ≤ (n : ℚ)) → ∃ v, process_file n r f o1 s1 = Except.ok v) := by
  refine ⟨⟨?_, ?_⟩, ?_, ?_⟩
  · rintro ⟨e, he⟩
    by_cases h : n < r / 10
    · exact h
    · unfold process_file at he
      rw [ if_neg h] at he
      exact Except.noConfusion he
  · intro h
    unfold process_file
    rw [ if_pos h]
    exact ⟨_, rfl⟩
  · intro h
    unfold process_file
    rw [ if_pos h, if_pos h]
  · intro h
    have hq : (r : ℚ) ≤ 10 * (n : ℚ) := by linarith
    have h10 : r ≤ 10 * n := by exact_mod_cast hq
    have hd : r / 10 ≤ n :=
      le_trans (Nat.div_le_div_right h10) (le_of_eq (Nat.mul_div_cancel_left n (by norm_num)))
    unfold process_file
    rw [ if_neg (Nat.not_lt.mpr hd)]
    exact ⟨_, rfl⟩

/-- Witness for C3 at a sample count below the truncated threshold. -/
theorem process_file_length_gate_witness :
    ((∃ e, process_file 0 15 fZero none [] = Except.error e) ↔ 0 < 15 / 10) ∧
    (0 < 15 / 10 → process_file 0 15 fZero none [] = process_file 0 15 fPerc (some []) [1]) ∧
    ((((15 : ℕ) : ℚ) * 0.1 ≤ ((0 : ℕ) : ℚ)) →
      ∃ v, process_file 0 15 fZero none [] = Except.ok v) :=
  process_file_length_gate 0 15 fZero fPerc none (some []) [] [1]

/-- C3 counterexample to the claim as stated: one sample at rate 15 is below
sample_rate times 0.1 seconds of audio, yet process_file succeeds, because
int truncation lowers the threshold to 1 sample. -/
theorem short_clip_accepted_cex :
    ((1 : ℚ) < (15 : ℚ) * 0.1) ∧
    process_file 1 15 fZero none [] = Except.ok ((("Music"), ("#FFFFFF"))) :=
  ⟨by norm_num, by with_unfolding_all rfl⟩

/-- C4: the selection policy is total and returns one vocabulary category: a
non-generic key is kept exactly when its confidence exceeds 0.15, the Music
key is kept exactly when every other confidence is at most 0.15, an empty
filtered dictionary is replaced by the Music singleton, and the returned key
is the maximal-confidence entry of the effective dictionary, earliest in
dictionary (vocabulary) order among ties. -/
theorem selection_policy_correct (m : ConfidenceMap) :
    selectInstrument m ∈ vocab.map catName ∧
    (∀ c : Category, c ≠ Category.Music →
      ((catName c, m c) ∈ filtered_classifications m ↔ m c > threshold)) ∧
    ((("Music"), m Category.Music) ∈ filtered_classifications m ↔
      ∀ c : Category, c ≠ Category.Music → m c ≤ threshold) ∧
    (filtered_classifications m = [] → selectInstrument m = ("Music")) ∧
    (∃ v l1 l2, effectiveList m = l1 ++ (selectInstrument m, v) :: l2 ∧
      (∀ p ∈ effectiveList m, p.2 ≤ v) ∧ (∀ p ∈ l1, p.2 < v)) := by
  refine ⟨selectInstrument_mem m, fun c hc => filtered_mem_iff_nonmusic m c hc,
    filtered_mem_music_iff m, ?_, ?_⟩
  · intro hnil
    unfold selectInstrument effectiveList
    rw [ hnil]
    rfl
  · rcases hE : effectiveList m with _ | ⟨x, xs⟩
    · exact absurd hE (effectiveList_ne_nil m)
    · obtain ⟨l1, l2, hdec, hmax, hfirst⟩ := maxByVal_first_max x xs
      have hsel : selectInstrument m = (maxByVal x xs).1 := by
        unfold selectInstrument
        rw [ hE]
      refine ⟨(maxByVal x xs).2, l1, l2, ?_, ?_, ?_⟩
      · rw [ hsel]
        exact hdec
      · intro p hp
        exact hmax p hp
      · exact hfirst

/-- Witness for C4 on a concrete final confidence map. -/
theorem selection_policy_correct_witness :
    selectInstrument (classify fPerc []) ∈ vocab.map catName :=
  (selection_policy_correct (classify fPerc [])).1

/-- C5 counterexample: the data-model vocabulary of the spec lists Violin,
but the confidence dictionary classify returns has no Violin key. -/
theorem vocabulary_violin_missing_cex :
    ("Violin") ∈ specVocabularyNames ∧
    ("Violin") ∉ (items (classify fZero [])).map Prod.fst := by
  constructor
  · decide
  · apply of_decide_eq_true
    with_unfolding_all rfl

/-- C5 (amended): for frame scores in the unit interval, classify returns a
confidence map over exactly the 24 keys the classifier initializes (the
vocabulary without Violin), every confidence lies in the unit interval, and
the selected category is one of those keys. -/
theorem classify_vocabulary_bounds (f : FeatureSet) (ys : List (String × ℚ))
    (hys : ∀ p ∈ ys, 0 ≤ p.2 ∧ p.2 ≤ 1) :
    ((items (classify f ys)).map Prod.fst = vocab.map catName) ∧
    (∀ c : Category, 0 ≤ classify f ys c ∧ classify f ys c ≤ 1) ∧
    selectInstrument (classify f ys) ∈ vocab.map catName := by
  refine ⟨?_, classify_bounded f ys hys, selectInstrument_mem (classify f ys)⟩
  unfold items
  rw [ List.map_map]
  rfl

/-- Witness for C5 at one external class scored one half. -/
theorem classify_vocabulary_bounds_witness :
    (∀ p ∈ ([(("Guitar"), (0.5 : ℚ))] : List (String × ℚ)), 0 ≤ p.2 ∧ p.2 ≤ 1) ∧
    (∀ c : Category, 0 ≤ classify fZero [(("Guitar"), (0.5 : ℚ))] c ∧
      classify fZero [(("Guitar"), (0.5 : ℚ))] c ≤ 1) :=
  ⟨by apply of_decide_eq_true; with_unfolding_all rfl,
    (classify_vocabulary_bounds fZero [(("Guitar"), (0.5 : ℚ))]
      (by apply of_decide_eq_true; with_unfolding_all rfl)).2.1⟩

/-- C6: merging the external scores is monotone over the heuristic output:
no category decreases, a category matched by no entry with score above 0.3
keeps exactly its heuristic value, and every matching entry with score above
0.3 pushes the category to at least that score. -/
theorem merge_monotone_characterized (f : FeatureSet) (ys : List (String × ℚ))
    (c : Category) :
    heuristicStage f initMap c ≤ mergeStage ys (heuristicStage f initMap) c ∧
    ((∀ p ∈ ys, ¬(p.2 > 0.3 ∧ substrOf (strLower (catName c)) (strLower p.1) = true)) →
      mergeStage ys (heuristicStage f initMap) c = heuristicStage f initMap c) ∧
    (∀ p ∈ ys, p.2 > 0.3 → substrOf (strLower (catName c)) (strLower p.1) = true →
      p.2 ≤ mergeStage ys (heuristicStage f initMap) c) :=
  ⟨mergeStage_le ys _ c, mergeStage_untouched ys _ c,
    fun p hp h1 h2 => mergeStage_lower ys _ c p hp h1 h2⟩

/-- Witness for C6 at the Drums category and one matching entry. -/
theorem merge_monotone_characterized_witness :
    heuristicStage fZero initMap Category.Drums ≤
      mergeStage [(("Drums"), (0.5 : ℚ))] (heuristicStage fZero initMap) Category.Drums ∧
    ((∀ p ∈ ([(("Drums"), (0.5 : ℚ))] : List (String × ℚ)),
      ¬(p.2 > 0.3 ∧ substrOf (strLower (catName Category.Drums)) (strLower p.1) = true)) →
      mergeStage [(("Drums"), (0.5 : ℚ))] (heuristicStage fZero initMap) Category.Drums =
        heuristicStage fZero initMap Category.Drums) ∧
    (∀ p ∈ ([(("Drums"), (0.5 : ℚ))] : List (String × ℚ)), p.2 > 0.3 →
      substrOf (strLower (catName Category.Drums)) (strLower p.1) = true →
      p.2 ≤ mergeStage [(("Drums"), (0.5 : ℚ))] (heuristicStage fZero initMap) Category.Drums) :=
  merge_monotone_characterized fZero [(("Drums"), (0.5 : ℚ))] Category.Drums

/-- C7: features with zero crossing rate mean 0.15 and spectral centroid
mean 6000 drive the heuristic stage to Cymbal 0.9, Hi-hat 0.8 and Drums 0.9,
and classify never returns any of the three below its heuristic value. -/
theorem percussion_features_boost (f : FeatureSet) (ys : List (String × ℚ))
    (h1 : f.zcr_mean = 0.15) (h2 : f.spec_mean = 6000) :
    heuristicStage f initMap Category.Cymbal = 0.9 ∧
    heuristicStage f initMap Category.HiHat = 0.8 ∧
    heuristicStage f initMap Category.Drums = 0.9 ∧
    heuristicStage f initMap Category.Cymbal ≤ classify f ys Category.Cymbal ∧
    heuristicStage f initMap Category.HiHat ≤ classify f ys Category.HiHat ∧
    heuristicStage f initMap Category.Drums ≤ classify f ys Category.Drums := by
  obtain ⟨hc, hh, hd⟩ := heuristicStage_perc_values f h1 h2
  have key : ∀ c : Category, c ≠ Category.Music →
      heuristicStage f initMap c ≤ classify f ys c := by
    intro c hc2
    have hcl : classify f ys c = mergeStage ys (heuristicStage f initMap) c :=
      musicZeroStage_ne _ c hc2
    rw [ hcl]
    exact mergeStage_le ys _ c
  exact ⟨hc, hh, hd, key Category.Cymbal (by decide), key Category.HiHat (by decide),
    key Category.Drums (by decide)⟩

/-- Witness for C7 at the percussion features and an empty score list. -/
theorem percussion_features_boost_witness :
    (fPerc.zcr_mean = 0.15 ∧ fPerc.spec_mean = 6000) ∧
    (heuristicStage fPerc initMap Category.Cymbal = 0.9 ∧
    heuristicStage fPerc initMap Category.HiHat = 0.8 ∧
    heuristicStage fPerc initMap Category.Drums = 0.9 ∧
    heuristicStage fPerc initMap Category.Cymbal ≤ classify fPerc [] Category.Cymbal ∧
    heuristicStage fPerc initMap Category.HiHat ≤ classify fPerc [] Category.HiHat ∧
    heuristicStage fPerc initMap Category.Drums ≤ classify fPerc [] Category.Drums) :=
  ⟨⟨rfl, rfl⟩, percussion_features_boost fPerc [] rfl rfl⟩

/-- C8 counterexample: classification is not independent of the outcome of
the call-time class-name download: the same features and scores give
different confidence maps when the download returns a Guitar class and when
it fails (falling back to the drum-related list). -/
theorem classify_fetch_dependent_cex :
    ¬ classifyRun (some [("Guitar")]) fZero [(0.5 : ℚ)] =
      classifyRun none fZero [(0.5 : ℚ)] := by
  intro h
  have h2 := congrFun h Category.Guitar
  have h3 : classifyRun (some [("Guitar")]) fZero [(0.5 : ℚ)] Category.Guitar = 0.5 := by
    with_unfolding_all rfl
  have h4 : classifyRun none fZero [(0.5 : ℚ)] Category.Guitar = 0 := by
    with_unfolding_all rfl
  rw [ h3, h4] at h2
  norm_num at h2

/-- C8 (amended): classification is deterministic given the waveform
features, the scores and the loaded class-name list - two runs whose
class-name loads agree give identical confidence maps - and a failed
download always loads the fixed built-in fallback list. -/
theorem classify_fetch_determinism (f : FeatureSet) (s : List ℚ)
    (o1 o2 : Option (List String)) (h : loadClassMap o1 = loadClassMap o2) :
    classifyRun o1 f s = classifyRun o2 f s ∧ loadClassMap none = fallbackClassMap := by
  constructor
  · unfold classifyRun
    rw [ h]
  · rfl

/-- Witness for C8 comparing a failed download with a download returning
exactly the fallback list. -/
theorem classify_fetch_determinism_witness :
    loadClassMap none = loadClassMap (some fallbackClassMap) ∧
    (classifyRun none fZero [] = classifyRun (some fallbackClassMap) fZero [] ∧
      loadClassMap none = fallbackClassMap) :=
  ⟨rfl, classify_fetch_determinism fZero [] none (some fallbackClassMap) rfl⟩

/-- C9: with the effective built-in fallback list (the drum-related list of
the second _load_class_map definition, which shadows the first), the merge
leaves every category outside the percussion family at exactly its heuristic
value, whatever the scores. -/
theorem fallback_merge_scope (f : FeatureSet) (s : List ℚ) (c : Category)
    (hc : c ∉ percussionFamily) :
    mergeStage (List.zip fallbackClassMap s) (heuristicStage f initMap) c =
      heuristicStage f initMap c := by
  apply mergeStage_untouched
  intro p hp
  have hname : p.1 ∈ fallbackClassMap := (List.of_mem_zip hp).1
  have hkey : ∀ name ∈ fallbackClassMap,
      substrOf (strLower (catName c)) (strLower name) = false := by
    rcases fallback_scope_fact c with h | h
    · exact absurd h hc
    · exact h
  rintro ⟨-, hsub⟩
  rw [ hkey p.1 hname] at hsub
  exact Bool.noConfusion hsub

/-- Witness for C9 at the Guitar category. -/
theorem fallback_merge_scope_witness :
    Category.Guitar ∉ percussionFamily ∧
    mergeStage (List.zip fallbackClassMap [(1 : ℚ)]) (heuristicStage fZero initMap)
        Category.Guitar =
      heuristicStage fZero initMap Category.Guitar :=
  ⟨by decide, fallback_merge_scope fZero [(1 : ℚ)] Category.Guitar (by decide)⟩

/-- C10: the heuristic rule engine never assigns Bass drum: its branch needs
a spectral centroid mean both above 2000 and below 1000, so for every
feature record the heuristic stage leaves Bass drum at zero. -/
theorem bass_drum_never_assigned (f : FeatureSet) :
    heuristicStage f initMap Category.BassDrum = 0 := by
  unfold heuristicStage
  rw [ electronicRule_other f _ _ (by decide) (by decide),
    vocalRule_other f _ _ (by decide) (by decide) (by decide),
    guitarRule_other f _ _ (by decide) (by decide) (by decide)]
  unfold percussionRule
  by_cases hcond : f.zcr_mean > 0.1 ∧ f.spec_mean > 2000
  · rw [ if_pos hcond]
    by_cases h5 : f.spec_mean > 5000
    · rw [ if_pos h5]
      simp [upd, initMap]
    · rw [ if_neg h5]
      by_cases hlow : f.spec_mean < 1000
      · exact absurd hcond.2 (by linarith)
      · rw [ if_neg hlow]
        simp [upd, initMap]
  · rw [ if_neg hcond]
    rfl

/-- Witness for C10 at the percussion features. -/
theorem bass_drum_never_assigned_witness :
    heuristicStage fPerc initMap Category.BassDrum = 0 :=
  bass_drum_never_assigned fPerc
